import Mathlib

/-!
Verification of the JSON-to-flat-record extraction/normalization routine of
this repository (`parse_and_save_to_excel` in `src/scrapeZillow5.py`).

The embedding models Python values reachable from a decoded JSON document as
the inductive `JVal` (JSON numbers are modelled as integers; floating-point
numerals are outside the model).  Python dictionaries are insertion-ordered
association lists; `dict.get`, `dict[...]`, the `in` operator, truthiness and
`str()` are embedded as explicit functions.  The routine's single catch-all
`except` block is modelled by the `Except Failure` monad: every Python
exception site throws, so nothing propagates past the routine's boundary and
no row is produced on failure.
-/

namespace ZillowScrape

/-- A decoded JSON / Python value.  Objects keep insertion order, as Python
dictionaries do.  Numbers are integers (this repository's blobs use integral
metrics; floats are outside the model). -/
inductive JVal where
  | null
  | bool (b : Bool)
  | num (n : Int)
  | str (s : String)
  | arr (xs : List JVal)
  | obj (kvs : List (String × JVal))

/-- The routine's observable failure outcomes.  `parseFailure` is the outer
`json.loads` raising on malformed input; `propertyNotFound` is the explicit
"Detailed data not found" early return; `parserError` stands for any other
Python exception swallowed by the routine's catch-all `except` block. -/
inductive Failure where
  | parseFailure
  | propertyNotFound
  | parserError
deriving DecidableEq

/-- The flat output record: one ordered mapping from display field name to
value, exactly one spreadsheet row. -/
abbrev FlatRecord := List (String × JVal)

/-- First-match lookup in an insertion-ordered dictionary. -/
def lookupKey : List (String × JVal) → String → Option JVal
  | [], _ => none
  | (k', v) :: rest, k => if k' = k then some v else lookupKey rest k

/-- Python `d[k] = v` on an insertion-ordered dictionary: overwrite in place
when the key exists, append otherwise. -/
def dictSet : FlatRecord → String → JVal → FlatRecord
  | [], k, v => [(k, v)]
  | (k', v') :: rest, k, v =>
      if k' = k then (k, v) :: rest else (k', v') :: dictSet rest k v

/-- Python truthiness of a value (`bool(v)`). -/
def truthy : JVal → Bool
  | .null => false
  | .bool b => b
  | .num n => n ≠ 0
  | .str s => s ≠ ""
  | .arr xs => ¬ xs.isEmpty
  | .obj kvs => ¬ kvs.isEmpty

/-- The fact filter `val is not None and val != [] and val != {}`
(`src/scrapeZillow5.py` line 49). -/
def keepFact : JVal → Bool
  | .null => false
  | .arr [] => false
  | .obj [] => false
  | _ => true

/-! ### Python `str()` / `repr()` of a value

`repr` of a string is modelled as plain single-quoting (Python's escape and
quote-selection rules are outside the model; no claim exercises them). -/

mutual

/-- Python `repr(v)`. -/
def pyrepr : JVal → String
  | .null => "None"
  | .bool true => "True"
  | .bool false => "False"
  | .num n => toString n
  | .str s => "'" ++ s ++ "'"
  | .arr xs => "[" ++ String.intercalate ", " (pyreprList xs) ++ "]"
  | .obj kvs => "\x7b" ++ String.intercalate ", " (pyreprPairs kvs) ++ "\x7d"

/-- `repr` of each element of a list. -/
def pyreprList : List JVal → List String
  | [] => []
  | x :: xs => pyrepr x :: pyreprList xs

/-- `repr` of each `key: value` member of a dictionary. -/
def pyreprPairs : List (String × JVal) → List String
  | [] => []
  | (k, v) :: kvs => ("'" ++ k ++ "': " ++ pyrepr v) :: pyreprPairs kvs

end

/-- Python `str(v)`: identity on strings, `repr` otherwise (scalars and
containers agree with `repr`). -/
def pystr : JVal → String
  | .str s => s
  | v => pyrepr v

/-! ### The key-name transform

`re.sub(r'(?<!^)(?=[A-Z])', ' ', key).strip().capitalize()`
(`src/scrapeZillow5.py` lines 50 and 60). -/

/-- ASCII uppercase test, matching the regex class `[A-Z]`. -/
def asciiUpper (c : Char) : Bool := 'A' ≤ c && c ≤ 'Z'

/-- ASCII lowercase test. -/
def asciiLower (c : Char) : Bool := 'a' ≤ c && c ≤ 'z'

/-- Lowercase one character, as Python `str.lower` does on ASCII. -/
def lowerChar (c : Char) : Char :=
  if asciiUpper c then Char.ofNat (c.toNat + 32) else c

/-- Uppercase one character, as Python `str.upper` does on ASCII. -/
def upperChar (c : Char) : Char :=
  if asciiLower c then Char.ofNat (c.toNat - 32) else c

/-- Characters stripped by Python `str.strip()` (ASCII whitespace). -/
def pySpace (c : Char) : Bool :=
  c = ' ' || c = '\t' || c = '\n' || c = '\r' || c = '\x0b' || c = '\x0c'

/-- `re.sub(r'(?<!^)(?=[A-Z])', ' ', s)` on every character after the first:
a single space lands immediately before each uppercase letter. -/
def spaceBeforeUpper : List Char → List Char
  | [] => []
  | c :: cs =>
      (if asciiUpper c then [' ', c] else [c]) ++ spaceBeforeUpper cs

/-- The whole regex substitution: the first character never receives a space
(the `(?<!^)` lookbehind), later uppercase characters do. -/
def insertSpaces (s : String) : String :=
  match s.data with
  | [] => ""
  | c :: cs => ⟨c :: spaceBeforeUpper cs⟩

/-- Python `str.strip()`: drop ASCII whitespace from both ends. -/
def pyStrip (s : String) : String :=
  ⟨((s.data.dropWhile pySpace).reverse.dropWhile pySpace).reverse⟩

/-- Python `str.capitalize()`: uppercase the first character and lowercase
every remaining character. -/
def pyCapitalize (s : String) : String :=
  match s.data with
  | [] => ""
  | c :: cs => ⟨upperChar c :: cs.map lowerChar⟩

/-- The label transform applied to fact keys and fact names:
`re.sub(r'(?<!^)(?=[A-Z])', ' ', key).strip().capitalize()`. -/
def cleanKey (s : String) : String :=
  pyCapitalize (pyStrip (insertSpaces s))

/-- A fact-derived column name: `f"Fact: {...}"`. -/
def factKey (s : String) : String := "Fact: " ++ cleanKey s

/-! ### `json.loads`

A fuel-based JSON parser over the input's character list, embedding the
`json.loads` calls of the routine.  Modelling notes: numbers are integral
(a numeral with a fraction or exponent is outside the model and rejected);
`\uXXXX` string escapes and the non-standard `NaN`/`Infinity` constants
accepted by Python are likewise outside the model; duplicate object keys are
kept as-is (the routine's first-match lookup is then exercised). -/

/-- JSON insignificant whitespace. -/
def jsonWs (c : Char) : Bool := c = ' ' || c = '\t' || c = '\n' || c = '\r'

/-- Drop insignificant whitespace. -/
def skipWs : List Char → List Char
  | [] => []
  | c :: cs => if jsonWs c then skipWs cs else c :: cs

/-- Does the text start with the given pattern? -/
def leadsWith : List Char → List Char → Bool
  | [], _ => true
  | _ :: _, [] => false
  | p :: ps, c :: cs => p = c && leadsWith ps cs

/-- Does the pattern occur anywhere in the text (Python `p in t` on
strings)? -/
def occursIn (p : List Char) : List Char → Bool
  | [] => p.isEmpty
  | c :: cs => leadsWith p (c :: cs) || occursIn p cs

/-- The single-character JSON string escapes (`\uXXXX` is outside the
model). -/
def escChar (c : Char) : Option Char :=
  if c = '"' then some '"'
  else if c = '\\' then some '\\'
  else if c = '/' then some '/'
  else if c = 'b' then some '\x08'
  else if c = 'f' then some '\x0c'
  else if c = 'n' then some '\n'
  else if c = 'r' then some '\r'
  else if c = 't' then some '\t'
  else none

/-- Parse the body of a JSON string after its opening quote; raw control
characters are rejected as in the JSON grammar. -/
def strBody (acc : List Char) : List Char → Option (String × List Char)
  | [] => none
  | c :: cs =>
      if c = '"' then some (⟨acc.reverse⟩, cs)
      else if c = '\\' then
        match cs with
        | [] => none
        | e :: cs' =>
            match escChar e with
            | some ec => strBody (ec :: acc) cs'
            | none => none
      else if c.toNat < 32 then none
      else strBody (c :: acc) cs

/-- Decimal digit value. -/
def digitVal (c : Char) : Option Nat :=
  if '0' ≤ c && c ≤ '9' then some (c.toNat - 48) else none

/-- Longest leading run of decimal digits, and the rest. -/
def takeDigits : List Char → List Nat × List Char
  | [] => ([], [])
  | c :: cs =>
      match digitVal c with
      | some d => let (ds, r) := takeDigits cs; (d :: ds, r)
      | none => ([], c :: cs)

/-- Assemble a digit run into a natural number. -/
def natOfDigits (ds : List Nat) : Nat := ds.foldl (fun a d => a * 10 + d) 0

/-- Parse a JSON integer numeral (leading zeros rejected; a following `.`,
`e` or `E` would make it a float, which is outside the model). -/
def parseNum (cs : List Char) : Option (JVal × List Char) :=
  let (neg, cs1) := match cs with
    | '-' :: r => (true, r)
    | _ => (false, cs)
  match takeDigits cs1 with
  | ([], _) => none
  | (ds, rest) =>
      if 1 < ds.length ∧ ds.headD 0 = 0 then none
      else
        match rest with
        | '.' :: _ => none
        | 'e' :: _ => none
        | 'E' :: _ => none
        | _ =>
            let n : Int := natOfDigits ds
            some (.num (if neg then -n else n), rest)

mutual

/-- Parse one JSON value (fuel decreases at every bracket and comma, so the
input's length bounds the recursion). -/
def parseVal : Nat → List Char → Option (JVal × List Char)
  | 0, _ => none
  | Nat.succ f, cs =>
      match skipWs cs with
      | [] => none
      | c :: rest =>
          if c = '"' then
            match strBody [] rest with
            | some (s, r) => some (.str s, r)
            | none => none
          else if c = '\x7b' then
            match skipWs rest with
            | '\x7d' :: r => some (.obj [], r)
            | cs2 =>
                match parseMembers f cs2 with
                | some (kvs, r) => some (.obj kvs, r)
                | none => none
          else if c = '[' then
            match skipWs rest with
            | ']' :: r => some (.arr [], r)
            | cs2 =>
                match parseElems f cs2 with
                | some (xs, r) => some (.arr xs, r)
                | none => none
          else if c = 't' then
            if leadsWith ['r', 'u', 'e'] rest then some (.bool true, rest.drop 3) else none
          else if c = 'f' then
            if leadsWith ['a', 'l', 's', 'e'] rest then some (.bool false, rest.drop 4) else none
          else if c = 'n' then
            if leadsWith ['u', 'l', 'l'] rest then some (.null, rest.drop 3) else none
          else parseNum (c :: rest)

/-- Parse the comma-separated elements of a non-empty array, up to and
including the closing bracket. -/
def parseElems : Nat → List Char → Option (List JVal × List Char)
  | 0, _ => none
  | Nat.succ f, cs =>
      match parseVal f cs with
      | none => none
      | some (v, r) =>
          match skipWs r with
          | ',' :: r2 =>
              match parseElems f r2 with
              | some (xs, r3) => some (v :: xs, r3)
              | none => none
          | ']' :: r2 => some ([v], r2)
          | _ => none

/-- Parse the comma-separated members of a non-empty object, up to and
including the closing brace. -/
def parseMembers : Nat → List Char → Option (List (String × JVal) × List Char)
  | 0, _ => none
  | Nat.succ f, cs =>
      match skipWs cs with
      | '"' :: r =>
          match strBody [] r with
          | none => none
          | some (k, r2) =>
              match skipWs r2 with
              | ':' :: r3 =>
                  match parseVal f r3 with
                  | none => none
                  | some (v, r4) =>
                      match skipWs r4 with
                      | ',' :: r5 =>
                          match parseMembers f r5 with
                          | some (kvs, r6) => some ((k, v) :: kvs, r6)
                          | none => none
                      | '\x7d' :: r5 => some ([(k, v)], r5)
                      | _ => none
              | _ => none
      | _ => none

end

/-- `json.loads` on a whole document: one value, then only whitespace. -/
def parseJson (s : String) : Option JVal :=
  match parseVal (s.length + s.length + 8) s.data with
  | some (v, r) => if (skipWs r).isEmpty then some v else none
  | none => none

/-! ### The extraction routine (`parse_and_save_to_excel`, lines 10-75)

Each Python dynamic operation throws into `Except Failure` exactly where the
source would raise into the routine's catch-all `except` block. -/

/-- Python `v.get(k, d)`: a dictionary lookup with a default; any non-dict
receiver raises `AttributeError` (caught by the routine's `except`). -/
def pyGetD (v : JVal) (k : String) (d : JVal) : Except Failure JVal :=
  match v with
  | .obj kvs => .ok ((lookupKey kvs k).getD d)
  | _ => .error .parserError

/-- Python `"property" in v` (line 19): key membership for a dict, element
membership for a list, substring for a string; `in` on any other value
raises `TypeError` (caught by the catch-all). -/
def hasPropertyKey : JVal → Except Failure Bool
  | .obj kvs => .ok (lookupKey kvs "property").isSome
  | .arr xs =>
      .ok (xs.any fun x => match x with
        | .str t => t = "property"
        | _ => false)
  | .str t => .ok (occursIn "property".data t.data)
  | _ => .error .parserError

/-- The scan loop of lines 17-21: take the first cache entry for which
`"property" in cache_data[key]` holds and subscript it; subscripting a
matching list or string with `"property"` raises `TypeError`. -/
def findProp : List (String × JVal) → Except Failure (Option JVal)
  | [] => .ok none
  | (_, v) :: rest =>
      match hasPropertyKey v with
      | .error e => .error e
      | .ok true =>
          match v with
          | .obj evs =>
              match lookupKey evs "property" with
              | some p => .ok (some p)
              | none => .error .parserError
          | _ => .error .parserError
      | .ok false => findProp rest

/-- `for key in cache_data` over the decoded cache value: dictionaries are
scanned; an empty list or string iterates zero times; every other decoded
shape raises inside the loop body and lands in the catch-all (the exotic
integer-element corner cases of indexing a list are outside the model). -/
def scanCache : JVal → Except Failure (Option JVal)
  | .obj kvs => findProp kvs
  | .arr [] => .ok none
  | .str "" => .ok none
  | _ => .error .parserError

/-- The inner `json.loads(cache_str)` (line 15): requires a string (a
non-string raises `TypeError`) that decodes as JSON. -/
def jloads (v : JVal) : Except Failure JVal :=
  match v with
  | .str s =>
      match parseJson s with
      | some j => .ok j
      | none => .error .parserError
  | _ => .error .parserError

/-- Lines 13-26: descend `props → pageProps → componentProps →
gdpClientCache` with `{}`/`"{}"` defaults, decode the cache, scan it for the
first entry exposing `property`, fall back to `page_props.get("property",
{})`, and fail with `propertyNotFound` when the result is still falsy. -/
def locateProp (data : JVal) : Except Failure JVal :=
  (pyGetD data "props" (.obj [])).bind fun props =>
  (pyGetD props "pageProps" (.obj [])).bind fun pageProps =>
  (pyGetD pageProps "componentProps" (.obj [])).bind fun compProps =>
  (pyGetD compProps "gdpClientCache" (.str "\x7b\x7d")).bind fun cacheVal =>
  (jloads cacheVal).bind fun cacheData =>
  (scanCache cacheData).bind fun scanned =>
  (if truthy (scanned.getD (.obj []))
     then .ok (scanned.getD (.obj []))
     else pyGetD pageProps "property" (.obj [])).bind fun prop =>
  if truthy prop then .ok prop else .error .propertyNotFound

/-- One list element's contribution to a joined fact string (line 52):
`str(i.get("text", i)) if isinstance(i, dict) else str(i)`. -/
def elemStr : JVal → String
  | .obj kvs => pystr ((lookupKey kvs "text").getD (.obj kvs))
  | v => pystr v

/-- The value stored for one kept standard fact (lines 51-53): a list is
joined with `", "`, anything else is stored as-is. -/
def factVal : JVal → JVal
  | .arr xs => .str (String.intercalate ", " (xs.map elemStr))
  | v => v

/-- One iteration of the standard-facts sweep (lines 47-53): skip
`otherFacts`, drop null/empty values, store the coerced value under the
transformed label. -/
def resoStep (r : FlatRecord) : String × JVal → FlatRecord
  | (k, v) =>
      if k = "otherFacts" then r
      else if keepFact v then dictSet r (factKey k) (factVal v)
      else r

/-- The whole standard-facts sweep, in the dictionary's insertion order. -/
def sweepReso (rkvs : List (String × JVal)) (r : FlatRecord) : FlatRecord :=
  rkvs.foldl resoStep r

/-- The secondary-facts sweep (lines 56-61): for each item, fetch `name` and
`value` with `None` defaults, store `value` as-is under the transformed name
when both are truthy; a non-dict item raises at `.get`, and a truthy
non-string name raises inside `re.sub`. -/
def sweepOther : List JVal → FlatRecord → Except Failure FlatRecord
  | [], r => .ok r
  | .obj ikvs :: rest, r =>
      if truthy ((lookupKey ikvs "name").getD .null)
          && truthy ((lookupKey ikvs "value").getD .null) then
        match (lookupKey ikvs "name").getD .null with
        | .str s => sweepOther rest (dictSet r (factKey s) ((lookupKey ikvs "value").getD .null))
        | _ => .error .parserError
      else sweepOther rest r
  | _ :: _, _ => .error .parserError

/-- Lines 29-43: the report seeded with the address and the fixed core
metrics, in insertion order.  Each metric is `prop.get(...)`, i.e. `None`
(not omission!) when the key is absent; the URL is the site prefix
concatenated with `str()` of the `hdpUrl` value. -/
def metricsOf (kvs : List (String × JVal)) (addr : String) : FlatRecord :=
  [("Address", .str addr),
   ("Price", (lookupKey kvs "price").getD .null),
   ("Zestimate", (lookupKey kvs "zestimate").getD .null),
   ("Beds", (lookupKey kvs "bedrooms").getD .null),
   ("Baths", (lookupKey kvs "bathrooms").getD .null),
   ("Sqft", (lookupKey kvs "livingAreaValue").getD .null),
   ("Year Built", (lookupKey kvs "yearBuilt").getD .null),
   ("Home Type", (lookupKey kvs "homeType").getD .null),
   ("URL", .str ("https://www.zillow.com" ++ pystr ((lookupKey kvs "hdpUrl").getD .null)))]

/-- The items `for item in other_facts` would iterate over: a list's
elements; an empty dict or string iterates zero times; iterating anything
else (or a non-empty dict or string, whose elements are keys or characters)
raises in the loop body and lands in the catch-all. -/
def otherItems : JVal → Except Failure (List JVal)
  | .arr items => .ok items
  | .obj [] => .ok []
  | .str "" => .ok []
  | _ => .error .parserError

/-- Lines 29-61: build the flat record from a located property record.  A
non-dict property record raises at the first `prop.get`; a non-dict
`resoFacts` raises at `.items()`. -/
def buildReport (prop : JVal) (addr : String) : Except Failure FlatRecord :=
  match prop with
  | .obj kvs =>
      match (lookupKey kvs "resoFacts").getD (.obj []) with
      | .obj rkvs =>
          (otherItems ((lookupKey rkvs "otherFacts").getD (.arr []))).bind fun items =>
            sweepOther items (sweepReso rkvs (metricsOf kvs addr))
      | _ => .error .parserError
  | _ => .error .parserError

/-- The routine on an already-decoded blob: locate the property record, then
flatten it. -/
def normalizeData (data : JVal) (addr : String) : Except Failure FlatRecord :=
  (locateProp data).bind fun prop => buildReport prop addr

/-- The whole routine (`parse_and_save_to_excel`): decode the raw string —
a malformed input raises `json.JSONDecodeError` inside the catch-all, so no
row is produced — then extract and flatten.  A `.ok` result is the one row
handed to the spreadsheet writer; an `.error` result is the no-row outcome. -/
def parse_and_save_to_excel (raw : String) (addr : String) : Except Failure FlatRecord :=
  match parseJson raw with
  | some data => normalizeData data addr
  | none => .error .parseFailure

/-- A blob whose `props.pageProps` holds the given members (the shape every
claim about record location starts from). -/
def mkData (ppkvs : List (String × JVal)) : JVal :=
  .obj [("props", .obj [("pageProps", .obj ppkvs)])]

/-! ### Dictionary lemmas -/

theorem lookupKey_dictSet_self (d : FlatRecord) (k : String) (v : JVal) :
    lookupKey (dictSet d k v) k = some v := by
  induction d with
  | nil => simp [dictSet, lookupKey]
  | cons hd tl ih =>
      obtain ⟨k', v'⟩ := hd
      by_cases h : k' = k
      · simp [dictSet, lookupKey, h]
      · simp [dictSet, lookupKey, h, ih]

theorem lookupKey_dictSet_ne (d : FlatRecord) (k k' : String) (v : JVal)
    (h : k' ≠ k) : lookupKey (dictSet d k v) k' = lookupKey d k' := by
  have h' : ¬ k = k' := fun he => h he.symm
  induction d with
  | nil => simp [dictSet, lookupKey, h']
  | cons hd tl ih =>
      obtain ⟨k0, v0⟩ := hd
      by_cases h0 : k0 = k
      · subst h0
        simp [dictSet, lookupKey, h']
      · by_cases h1 : k0 = k'
        · simp [dictSet, lookupKey, h0, h1, h]
        · simp [dictSet, lookupKey, h0, h1, ih]

theorem dictSet_fresh (d : FlatRecord) (k : String) (v : JVal)
    (h : k ∉ d.map Prod.fst) : dictSet d k v = d ++ [(k, v)] := by
  induction d with
  | nil => simp [dictSet]
  | cons hd tl ih =>
      obtain ⟨k0, v0⟩ := hd
      simp only [List.map_cons, List.mem_cons, not_or] at h
      have h1 : ¬ k0 = k := fun he => h.1 he.symm
      simp [dictSet, h1, ih h.2]

/-- Every fact-derived column name starts with the marker character `F`. -/
theorem factKey_data (k : String) :
    (factKey k).data = 'F' :: 'a' :: 'c' :: 't' :: ':' :: ' ' :: (cleanKey k).data := rfl

/-- A fact-derived column name never collides with a name that does not
start with `F` — in particular with none of the fixed metric columns. -/
theorem factKey_ne (k s : String) (h : s.data.head? ≠ some 'F') : factKey k ≠ s := by
  intro he
  apply h
  rw [← he, factKey_data]
  rfl

/-- The standard-facts sweep only writes fact-prefixed columns, so any other
column keeps its value. -/
theorem sweepReso_preserves (rkvs : List (String × JVal)) (d : FlatRecord)
    (m : String) (h : ∀ k, factKey k ≠ m) :
    lookupKey (sweepReso rkvs d) m = lookupKey d m := by
  induction rkvs generalizing d with
  | nil => rfl
  | cons hd tl ih =>
      obtain ⟨k0, v0⟩ := hd
      have hm : m ≠ factKey k0 := fun he => h k0 he.symm
      have hstep : lookupKey (resoStep d (k0, v0)) m = lookupKey d m := by
        simp only [resoStep]
        by_cases h1 : k0 = "otherFacts"
        · simp [h1]
        · by_cases h2 : keepFact v0
          · simp [h1, h2, lookupKey_dictSet_ne _ _ _ _ hm]
          · simp [h1, h2]
      calc lookupKey (sweepReso ((k0, v0) :: tl) d) m
          = lookupKey (sweepReso tl (resoStep d (k0, v0))) m := rfl
        _ = lookupKey (resoStep d (k0, v0)) m := ih _
        _ = lookupKey d m := hstep

/-- The secondary-facts sweep likewise only writes fact-prefixed columns. -/
theorem sweepOther_preserves (items : List JVal) (d r : FlatRecord)
    (m : String) (hrun : sweepOther items d = .ok r) (h : ∀ k, factKey k ≠ m) :
    lookupKey r m = lookupKey d m := by
  induction items generalizing d with
  | nil =>
      simp only [sweepOther] at hrun
      cases hrun
      rfl
  | cons hd tl ih =>
      cases hd with
      | obj ikvs =>
          simp only [sweepOther] at hrun
          by_cases hc : truthy ((lookupKey ikvs "name").getD .null)
              && truthy ((lookupKey ikvs "value").getD .null)
          · rw [if_pos hc] at hrun
            cases hn : (lookupKey ikvs "name").getD .null with
            | str s =>
                rw [hn] at hrun
                have := ih _ hrun
                rw [this, lookupKey_dictSet_ne _ _ _ _ fun he => h s he.symm]
            | null => rw [hn] at hrun; cases hrun
            | bool b => rw [hn] at hrun; cases hrun
            | num n => rw [hn] at hrun; cases hrun
            | arr xs => rw [hn] at hrun; cases hrun
            | obj kvs => rw [hn] at hrun; cases hrun
          · rw [if_neg hc] at hrun
            exact ih _ hrun
      | null => cases hrun
      | bool b => cases hrun
      | num n => cases hrun
      | str s => cases hrun
      | arr xs => cases hrun

/-! ### Column-order bookkeeping -/

/-- The column names the standard-facts sweep appends, in sweep order. -/
def resoKeys : List (String × JVal) → List String
  | [] => []
  | (k, v) :: rest =>
      if k = "otherFacts" then resoKeys rest
      else if keepFact v then factKey k :: resoKeys rest
      else resoKeys rest

/-- The column names the secondary-facts sweep appends, in sweep order. -/
def otherKeys : List JVal → List String
  | [] => []
  | .obj ikvs :: rest =>
      (if truthy ((lookupKey ikvs "name").getD .null)
          && truthy ((lookupKey ikvs "value").getD .null) then
        match (lookupKey ikvs "name").getD .null with
        | .str s => [factKey s]
        | _ => []
      else []) ++ otherKeys rest
  | _ :: rest => otherKeys rest

/-- Does the sweep handle a `name`/`value` pair without raising?  A string
name always does; a non-string name does only when the pair is skipped
before `re.sub` could raise on it. -/
def goodName (n v : JVal) : Bool :=
  match n with
  | .str _ => true
  | _ => !(truthy n && truthy v)

/-- A secondary-fact item the sweep handles without raising: a dict whose
`name`/`value` pair is good. -/
def goodItem : JVal → Bool
  | .obj ikvs =>
      goodName ((lookupKey ikvs "name").getD .null) ((lookupKey ikvs "value").getD .null)
  | _ => false

/-- Every column resoKeys lists is fact-prefixed. -/
theorem resoKeys_factKey (rkvs : List (String × JVal)) :
    ∀ k ∈ resoKeys rkvs, ∃ k0, k = factKey k0 := by
  induction rkvs with
  | nil => simp [resoKeys]
  | cons hd tl ih =>
      obtain ⟨k0, v0⟩ := hd
      intro k hk
      by_cases h1 : k0 = "otherFacts"
      · have : resoKeys ((k0, v0) :: tl) = resoKeys tl := by simp [resoKeys, h1]
        exact ih k (this ▸ hk)
      · by_cases h2 : keepFact v0
        · have : resoKeys ((k0, v0) :: tl) = factKey k0 :: resoKeys tl := by
            simp [resoKeys, h1, h2]
          rw [this] at hk
          rcases List.mem_cons.mp hk with hk | hk
          · exact ⟨k0, hk⟩
          · exact ih k hk
        · have : resoKeys ((k0, v0) :: tl) = resoKeys tl := by simp [resoKeys, h1, h2]
          exact ih k (this ▸ hk)

/-- Every column otherKeys lists is fact-prefixed. -/
theorem otherKeys_factKey (items : List JVal) :
    ∀ k ∈ otherKeys items, ∃ k0, k = factKey k0 := by
  induction items with
  | nil => simp [otherKeys]
  | cons hd tl ih =>
      intro k hk
      cases hd with
      | obj ikvs =>
          by_cases hc : truthy ((lookupKey ikvs "name").getD .null)
              && truthy ((lookupKey ikvs "value").getD .null)
          · cases hn : (lookupKey ikvs "name").getD .null with
            | str s =>
                rw [hn, Bool.and_eq_true] at hc
                have : otherKeys (JVal.obj ikvs :: tl) = factKey s :: otherKeys tl := by
                  simp [otherKeys, hn, hc.1, hc.2]
                rw [this] at hk
                rcases List.mem_cons.mp hk with hk | hk
                · exact ⟨s, hk⟩
                · exact ih k hk
            | null =>
                have : otherKeys (JVal.obj ikvs :: tl) = otherKeys tl := by
                  simp [otherKeys, hc, hn]
                exact ih k (this ▸ hk)
            | bool b =>
                have : otherKeys (JVal.obj ikvs :: tl) = otherKeys tl := by
                  simp [otherKeys, hc, hn]
                exact ih k (this ▸ hk)
            | num n =>
                have : otherKeys (JVal.obj ikvs :: tl) = otherKeys tl := by
                  simp [otherKeys, hc, hn]
                exact ih k (this ▸ hk)
            | arr xs =>
                have : otherKeys (JVal.obj ikvs :: tl) = otherKeys tl := by
                  simp [otherKeys, hc, hn]
                exact ih k (this ▸ hk)
            | obj kvs =>
                have : otherKeys (JVal.obj ikvs :: tl) = otherKeys tl := by
                  simp [otherKeys, hc, hn]
                exact ih k (this ▸ hk)
          · have : otherKeys (JVal.obj ikvs :: tl) = otherKeys tl := by
              simp [otherKeys, hc]
            exact ih k (this ▸ hk)
      | null => exact ih k hk
      | bool b => exact ih k hk
      | num n => exact ih k hk
      | str s => exact ih k hk
      | arr xs => exact ih k hk

/-- The standard-facts sweep appends its columns after the existing ones,
in sweep order, as long as none of them collides. -/
theorem sweepReso_keys (rkvs : List (String × JVal)) (d : FlatRecord)
    (hfresh : ∀ k ∈ resoKeys rkvs, k ∉ d.map Prod.fst)
    (hnd : (resoKeys rkvs).Nodup) :
    (sweepReso rkvs d).map Prod.fst = d.map Prod.fst ++ resoKeys rkvs := by
  induction rkvs generalizing d with
  | nil => simp [sweepReso, resoKeys]
  | cons hd tl ih =>
      obtain ⟨k0, v0⟩ := hd
      have hstep : sweepReso ((k0, v0) :: tl) d = sweepReso tl (resoStep d (k0, v0)) := rfl
      by_cases h1 : k0 = "otherFacts"
      · have hr : resoKeys ((k0, v0) :: tl) = resoKeys tl := by simp [resoKeys, h1]
        have hd0 : resoStep d (k0, v0) = d := by simp [resoStep, h1]
        rw [hr] at hfresh hnd
        rw [hstep, hd0, ih d hfresh hnd, hr]
      · by_cases h2 : keepFact v0
        · have hr : resoKeys ((k0, v0) :: tl) = factKey k0 :: resoKeys tl := by
            simp [resoKeys, h1, h2]
          rw [hr] at hfresh hnd
          have hhead : factKey k0 ∉ d.map Prod.fst := hfresh _ (List.mem_cons_self _ _)
          have hd0 : (resoStep d (k0, v0)).map Prod.fst = d.map Prod.fst ++ [factKey k0] := by
            have : resoStep d (k0, v0) = dictSet d (factKey k0) (factVal v0) := by
              simp [resoStep, h1, h2]
            rw [this, dictSet_fresh d _ _ hhead]
            simp
          have hfresh' : ∀ k ∈ resoKeys tl, k ∉ (resoStep d (k0, v0)).map Prod.fst := by
            intro k hk
            rw [hd0]
            simp only [List.mem_append, List.mem_singleton, not_or]
            exact ⟨hfresh k (List.mem_cons_of_mem _ hk),
              fun he => (List.nodup_cons.mp hnd).1 (he ▸ hk)⟩
          rw [hstep, ih _ hfresh' (List.nodup_cons.mp hnd).2, hd0, hr]
          simp
        · have hr : resoKeys ((k0, v0) :: tl) = resoKeys tl := by simp [resoKeys, h1, h2]
          have hd0 : resoStep d (k0, v0) = d := by simp [resoStep, h1, h2]
          rw [hr] at hfresh hnd
          rw [hstep, hd0, ih d hfresh hnd, hr]

/-- The secondary-facts sweep succeeds on good items and appends its columns
after the existing ones, in sweep order, as long as none collides. -/
theorem sweepOther_keys (items : List JVal) (d : FlatRecord)
    (hgood : ∀ item ∈ items, goodItem item = true)
    (hfresh : ∀ k ∈ otherKeys items, k ∉ d.map Prod.fst)
    (hnd : (otherKeys items).Nodup) :
    ∃ r, sweepOther items d = .ok r ∧ r.map Prod.fst = d.map Prod.fst ++ otherKeys items := by
  induction items generalizing d with
  | nil => exact ⟨d, rfl, by simp [otherKeys]⟩
  | cons hd tl ih =>
      cases hd with
      | obj ikvs =>
          by_cases hc : truthy ((lookupKey ikvs "name").getD .null)
              && truthy ((lookupKey ikvs "value").getD .null)
          · cases hn : (lookupKey ikvs "name").getD .null with
            | str s =>
                have hc0 := hc
                rw [hn, Bool.and_eq_true] at hc
                have hr : otherKeys (JVal.obj ikvs :: tl) = factKey s :: otherKeys tl := by
                  simp [otherKeys, hn, hc.1, hc.2]
                rw [hr] at hfresh hnd
                have hhead : factKey s ∉ d.map Prod.fst := hfresh _ (List.mem_cons_self _ _)
                have hset : (dictSet d (factKey s) ((lookupKey ikvs "value").getD .null)).map Prod.fst
                    = d.map Prod.fst ++ [factKey s] := by
                  rw [dictSet_fresh d _ _ hhead]; simp
                have hfresh' : ∀ k ∈ otherKeys tl,
                    k ∉ (dictSet d (factKey s) ((lookupKey ikvs "value").getD .null)).map Prod.fst := by
                  intro k hk
                  rw [hset]
                  simp only [List.mem_append, List.mem_singleton, not_or]
                  exact ⟨hfresh k (List.mem_cons_of_mem _ hk),
                    fun he => (List.nodup_cons.mp hnd).1 (he ▸ hk)⟩
                obtain ⟨r, hrun, hmap⟩ := ih _ (fun i hi => hgood i (List.mem_cons_of_mem _ hi))
                  hfresh' (List.nodup_cons.mp hnd).2
                refine ⟨r, ?_, ?_⟩
                · have hsw : sweepOther (JVal.obj ikvs :: tl) d
                      = sweepOther tl (dictSet d (factKey s) ((lookupKey ikvs "value").getD .null)) := by
                    simp only [sweepOther]
                    rw [if_pos hc0, hn]
                  rw [hsw]
                  exact hrun
                · rw [hmap, hset, hr]; simp
            | null =>
                rw [hn] at hc
                simp [truthy] at hc
            | bool b =>
                have hg := hgood _ (List.mem_cons_self _ _)
                rw [hn] at hc
                simp only [goodItem, goodName, hn] at hg
                simp [hc] at hg
            | num n =>
                have hg := hgood _ (List.mem_cons_self _ _)
                rw [hn] at hc
                simp only [goodItem, goodName, hn] at hg
                simp [hc] at hg
            | arr xs =>
                have hg := hgood _ (List.mem_cons_self _ _)
                rw [hn] at hc
                simp only [goodItem, goodName, hn] at hg
                simp [hc] at hg
            | obj kvs =>
                have hg := hgood _ (List.mem_cons_self _ _)
                rw [hn] at hc
                simp only [goodItem, goodName, hn] at hg
                simp [hc] at hg
          · have hr : otherKeys (JVal.obj ikvs :: tl) = otherKeys tl := by
              simp [otherKeys, hc]
            rw [hr] at hfresh hnd
            obtain ⟨r, hrun, hmap⟩ := ih d (fun i hi => hgood i (List.mem_cons_of_mem _ hi))
              hfresh hnd
            refine ⟨r, ?_, by rw [hmap, hr]⟩
            have hsw : sweepOther (JVal.obj ikvs :: tl) d = sweepOther tl d := by
              simp only [sweepOther]
              rw [if_neg hc]
            rw [hsw]
            exact hrun
      | null => exact absurd (hgood _ (List.mem_cons_self _ _)) (by simp [goodItem])
      | bool b => exact absurd (hgood _ (List.mem_cons_self _ _)) (by simp [goodItem])
      | num n => exact absurd (hgood _ (List.mem_cons_self _ _)) (by simp [goodItem])
      | str s => exact absurd (hgood _ (List.mem_cons_self _ _)) (by simp [goodItem])
      | arr xs => exact absurd (hgood _ (List.mem_cons_self _ _)) (by simp [goodItem])

/-! ### The report's fixed region -/

/-- The fixed column names, in insertion order. -/
theorem metricsOf_map (kvs : List (String × JVal)) (addr : String) :
    (metricsOf kvs addr).map Prod.fst =
      ["Address", "Price", "Zestimate", "Beds", "Baths", "Sqft",
       "Year Built", "Home Type", "URL"] := rfl

/-- In a successfully built report, any column the two fact sweeps can never
write still holds its seeded metric value. -/
theorem buildReport_fixed (kvs : List (String × JVal)) (addr : String)
    (r : FlatRecord) (m : String)
    (hrun : buildReport (.obj kvs) addr = .ok r) (hm : ∀ k, factKey k ≠ m) :
    lookupKey r m = lookupKey (metricsOf kvs addr) m := by
  simp only [buildReport] at hrun
  cases hres : (lookupKey kvs "resoFacts").getD (.obj []) with
  | obj rkvs =>
      rw [hres] at hrun
      replace hrun : (otherItems ((lookupKey rkvs "otherFacts").getD (.arr []))).bind
          (fun items => sweepOther items (sweepReso rkvs (metricsOf kvs addr)))
          = Except.ok r := hrun
      cases hoi : otherItems ((lookupKey rkvs "otherFacts").getD (.arr [])) with
      | ok items =>
          rw [hoi] at hrun
          simp only [Except.bind] at hrun
          rw [sweepOther_preserves items _ r m hrun hm]
          exact sweepReso_preserves rkvs _ m hm
      | error e => rw [hoi] at hrun; cases hrun
  | null => rw [hres] at hrun; cases hrun
  | bool b => rw [hres] at hrun; cases hrun
  | num n => rw [hres] at hrun; cases hrun
  | str s => rw [hres] at hrun; cases hrun
  | arr xs => rw [hres] at hrun; cases hrun

/-! ### Character-level facts about the label transform -/

/-- Packing a valid codepoint and unpacking it is the identity. -/
theorem toNat_ofNat_valid (n : Nat) (h : n.isValidChar) : (Char.ofNat n).toNat = n := by
  rw [Char.ofNat, dif_pos h]
  rfl

/-- Lowercasing a character never yields an ASCII uppercase letter. -/
theorem asciiUpper_lowerChar (c : Char) : asciiUpper (lowerChar c) = false := by
  unfold lowerChar
  by_cases h : asciiUpper c
  · rw [if_pos h]
    unfold asciiUpper at h ⊢
    rw [Bool.and_eq_true, decide_eq_true_iff, decide_eq_true_iff] at h
    obtain ⟨h1, h2⟩ := h
    rw [Char.le_def, UInt32.le_def, BitVec.le_def] at h1 h2
    have e1 : ('A'.val.toBitVec.toNat : Nat) = 65 := rfl
    have e2 : ('Z'.val.toBitVec.toNat : Nat) = 90 := rfl
    have e3 : c.val.toBitVec.toNat = c.toNat := rfl
    rw [e1, e3] at h1
    rw [e2, e3] at h2
    have hvalid : (c.toNat + 32).isValidChar := by
      left
      omega
    have hn : (Char.ofNat (c.toNat + 32)).toNat = c.toNat + 32 := toNat_ofNat_valid _ hvalid
    rw [Bool.and_eq_false_iff]
    right
    rw [decide_eq_false_iff_not, Char.le_def, UInt32.le_def, BitVec.le_def]
    have e4 : (Char.ofNat (c.toNat + 32)).val.toBitVec.toNat = c.toNat + 32 := hn
    rw [e4, e2]
    omega
  · rw [if_neg h]
    simpa using h

/-- After the transform, no character past the first is ASCII uppercase:
`str.capitalize()` lowercases the whole tail. -/
theorem cleanKey_tail_not_upper (s : String) :
    ∀ x ∈ (cleanKey s).data.tail, asciiUpper x = false := by
  intro x hx
  unfold cleanKey pyCapitalize at hx
  cases hdata : (pyStrip (insertSpaces s)).data with
  | nil => rw [hdata] at hx; simp at hx
  | cons c cs =>
      rw [hdata] at hx
      simp only [List.tail_cons] at hx
      obtain ⟨z, _, rfl⟩ := List.mem_map.mp hx
      exact asciiUpper_lowerChar z

/-! ### The claims -/

/-- C4: for every input string that is not valid JSON, the routine yields
the named failure `parseFailure` — no row is produced (the result is an
error, not a record), and no exception propagates (the embedding is a total
function into `Except`). -/
theorem C4_malformed_input (s addr : String) (h : parseJson s = none) :
    parse_and_save_to_excel s addr = .error .parseFailure := by
  unfold parse_and_save_to_excel
  rw [h]

theorem C4_malformed_input_witness :
    parseJson "\x7bnot json" = none ∧
      parse_and_save_to_excel "\x7bnot json" "4210 SW 6th Ave" = .error .parseFailure :=
  ⟨rfl, C4_malformed_input "\x7bnot json" "4210 SW 6th Ave" rfl⟩

/-- C2 counterexample: the claim's expected outputs are wrong on two of its
own three examples — the transform also lowercases the tail, so
`livingAreaValue` maps to `"Living area value"`, not `"Living area Value"`,
and `RoadSurfaceType` maps to `"Road surface type"`, not
`"Road surface Type"`. -/
theorem C2_counterexample :
    cleanKey "livingAreaValue" = "Living area value" ∧
      cleanKey "livingAreaValue" ≠ "Living area Value" ∧
      cleanKey "RoadSurfaceType" = "Road surface type" ∧
      cleanKey "RoadSurfaceType" ≠ "Road surface Type" :=
  ⟨rfl, by decide, rfl, by decide⟩

/-- C2 amended: the transform inserts a single space immediately before
every uppercase letter that is not the first character, then uppercases the
first character and LOWERCASES every remaining character (Python
`str.capitalize()`), so `yearBuilt ↦ "Year built"`,
`livingAreaValue ↦ "Living area value"`, `RoadSurfaceType ↦ "Road surface
type"`, and no character after the first of any transformed label is ASCII
uppercase. -/
theorem C2_label_transform :
    cleanKey "yearBuilt" = "Year built" ∧
      cleanKey "livingAreaValue" = "Living area value" ∧
      cleanKey "RoadSurfaceType" = "Road surface type" ∧
      insertSpaces "livingAreaValue" = "living Area Value" ∧
      ∀ s, ∀ x ∈ (cleanKey s).data.tail, asciiUpper x = false :=
  ⟨rfl, rfl, rfl, rfl, cleanKey_tail_not_upper⟩

theorem C2_label_transform_witness :
    'r' ∈ (cleanKey "yearBuilt").data.tail ∧ asciiUpper 'r' = false :=
  ⟨by decide, C2_label_transform.2.2.2.2 "yearBuilt" 'r' (by decide)⟩

/-- C5: a standard fact whose value is a non-empty list is stored as its
elements joined with `", "`, where a dict element contributes `str()` of its
`text` field and any other element its direct `str()` form; a kept non-list
value is stored as-is. -/
theorem C5_list_facts (r : FlatRecord) (key : String) (xs : List JVal)
    (hk : key ≠ "otherFacts") (hne : xs ≠ []) :
    lookupKey (resoStep r (key, .arr xs)) (factKey key)
        = some (.str (String.intercalate ", " (xs.map elemStr))) ∧
      (∀ kvs t, lookupKey kvs "text" = some t → elemStr (.obj kvs) = pystr t) ∧
      (∀ s, elemStr (.str s) = s) ∧
      ∀ v, keepFact v = true → (∀ ys, v ≠ .arr ys) →
        lookupKey (resoStep r (key, v)) (factKey key) = some v := by
  refine ⟨?_, ?_, ?_, ?_⟩
  · have hkeep : keepFact (.arr xs) = true := by
      cases xs with
      | nil => exact absurd rfl hne
      | cons a as => rfl
    have hstep : resoStep r (key, .arr xs) = dictSet r (factKey key) (factVal (.arr xs)) := by
      simp [resoStep, hk, hkeep]
    rw [hstep]
    exact lookupKey_dictSet_self _ _ _
  · intro kvs t ht
    simp [elemStr, ht]
  · intro s
    rfl
  · intro v hkeep hnarr
    have hfv : factVal v = v := by
      cases v with
      | arr ys => exact absurd rfl (hnarr ys)
      | null => rfl
      | bool b => rfl
      | num n => rfl
      | str s => rfl
      | obj kvs => rfl
    have hstep : resoStep r (key, v) = dictSet r (factKey key) (factVal v) := by
      simp [resoStep, hk, hkeep]
    rw [hstep, hfv]
    exact lookupKey_dictSet_self _ _ _

theorem C5_list_facts_witness :
    lookupKey (resoStep [] ("flooring", .arr [.str "Tile", .str "Carpet"]))
        (factKey "flooring") = some (.str "Tile, Carpet") ∧
      lookupKey (resoStep [] ("parkingFeatures",
          .arr [.obj [("text", .str "Attached Garage")], .obj [("text", .str "Driveway")]]))
        (factKey "parkingFeatures") = some (.str "Attached Garage, Driveway") := by
  constructor
  · have h := (C5_list_facts [] "flooring" [.str "Tile", .str "Carpet"]
      (by decide) (by simp)).1
    rw [h]
    rfl
  · have h := (C5_list_facts [] "parkingFeatures"
      [.obj [("text", .str "Attached Garage")], .obj [("text", .str "Driveway")]]
      (by decide) (by simp)).1
    rw [h]
    rfl

/-- C6 counterexample: a pair whose `name` and `value` fields are both
present and whose value is a non-empty string still produces no entry when
the name is the empty string, because the code tests truthiness
(`if name and value`), not presence — refuting the claim's "exactly when
both name and value are present and value is non-empty". -/
theorem C6_counterexample :
    lookupKey [("name", JVal.str ""), ("value", JVal.str "Brick")] "name"
        = some (.str "") ∧
      lookupKey [("name", JVal.str ""), ("value", JVal.str "Brick")] "value"
        = some (.str "Brick") ∧
      truthy (.str "Brick") = true ∧
      sweepOther [.obj [("name", JVal.str ""), ("value", JVal.str "Brick")]] []
        = .ok [] :=
  ⟨rfl, rfl, rfl, rfl⟩

/-- C6 amended: a secondary `\x7bname, value\x7d` pair produces a FlatRecord
entry exactly when both name and value are truthy (a non-empty name string
and a non-null, non-zero, non-empty value); the entry's key is the label
transform of the name with the `"Fact: "` prefix, and the value is stored
directly — even a list value is stored as-is, with no join at this level. -/
theorem C6_other_fact_pairs (ikvs : List (String × JVal)) (rest : List JVal)
    (r : FlatRecord) (s : String) (v : JVal)
    (hname : (lookupKey ikvs "name").getD .null = .str s)
    (hvalue : (lookupKey ikvs "value").getD .null = v) :
    ((truthy (.str s) && truthy v) = true →
      sweepOther (.obj ikvs :: rest) r = sweepOther rest (dictSet r (factKey s) v)) ∧
    ((truthy (.str s) && truthy v) = false →
      sweepOther (.obj ikvs :: rest) r = sweepOther rest r) := by
  constructor
  · intro hc
    simp only [sweepOther, hname, hvalue]
    rw [if_pos hc]
  · intro hc
    simp only [sweepOther, hname, hvalue]
    rw [if_neg (by simp [hc])]

theorem C6_other_fact_pairs_witness :
    sweepOther [.obj [("name", .str "sewer"), ("value", .str "Public")]] []
      = .ok [("Fact: Sewer", .str "Public")] := by
  have h := (C6_other_fact_pairs [("name", .str "sewer"), ("value", .str "Public")]
    [] [] "sewer" (.str "Public") rfl rfl).1 (by decide)
  rw [h]
  rfl

/-- C10: a secondary pair whose fields are both present but whose value is
falsy (0, "", or []) — or whose name is the empty string — produces no
FlatRecord entry; presence alone is not sufficient. -/
theorem C10_falsy_pairs (ikvs : List (String × JVal)) (rest : List JVal)
    (r : FlatRecord) (n v : JVal)
    (hname : (lookupKey ikvs "name").getD .null = n)
    (hvalue : (lookupKey ikvs "value").getD .null = v)
    (hfalsy : truthy v = false ∨ n = .str "") :
    sweepOther (.obj ikvs :: rest) r = sweepOther rest r := by
  have hc : (truthy n && truthy v) = false := by
    rcases hfalsy with h | h
    · simp [h]
    · subst h
      simp [truthy]
  simp only [sweepOther, hname, hvalue]
  rw [if_neg (by simp [hc])]

theorem C10_falsy_pairs_witness :
    sweepOther [.obj [("name", .str "Fireplaces"), ("value", .num 0)]] [] = .ok [] ∧
      sweepOther [.obj [("name", .str "cooling"), ("value", .str "")]] [] = .ok [] ∧
      sweepOther [.obj [("name", .str "heating"), ("value", .arr [])]] [] = .ok [] := by
  refine ⟨?_, ?_, ?_⟩
  · have h := C10_falsy_pairs [("name", .str "Fireplaces"), ("value", .num 0)] [] []
      (.str "Fireplaces") (.num 0) rfl rfl (Or.inl (by decide))
    rw [h]
    rfl
  · have h := C10_falsy_pairs [("name", .str "cooling"), ("value", .str "")] [] []
      (.str "cooling") (.str "") rfl rfl (Or.inl (by decide))
    rw [h]
    rfl
  · have h := C10_falsy_pairs [("name", .str "heating"), ("value", .arr [])] [] []
      (.str "heating") (.arr []) rfl rfl (Or.inl (by decide))
    rw [h]
    rfl

/-- C1 counterexample: on a blob whose property record has a `zestimate`
but no `price`, the routine succeeds and the FlatRecord DOES contain a
"Price" entry, holding the null placeholder — `report.update` copies
`prop.get("price")`, i.e. `None`, instead of omitting the column.  This
refutes the claim that an absent metric produces no column entry. -/
theorem C1_counterexample :
    (normalizeData (mkData [("property", .obj [("zestimate", .num 300000)])]) "X St").map
        (fun r => lookupKey r "Price") = .ok (some JVal.null) := rfl

/-- C1 amended: each fixed scalar metric column is ALWAYS present in a
successfully built FlatRecord; its value is the source value copied
verbatim when the key is present (in particular "Price" equals the record's
price exactly, with no coercion or rounding), and the null placeholder when
the key is absent or null — never an omitted column. -/
theorem C1_core_metrics (kvs : List (String × JVal)) (addr : String)
    (r : FlatRecord) (hrun : buildReport (.obj kvs) addr = .ok r) :
    lookupKey r "Price" = some ((lookupKey kvs "price").getD .null) ∧
      lookupKey r "Zestimate" = some ((lookupKey kvs "zestimate").getD .null) ∧
      lookupKey r "Beds" = some ((lookupKey kvs "bedrooms").getD .null) ∧
      lookupKey r "Baths" = some ((lookupKey kvs "bathrooms").getD .null) ∧
      lookupKey r "Sqft" = some ((lookupKey kvs "livingAreaValue").getD .null) ∧
      lookupKey r "Year Built" = some ((lookupKey kvs "yearBuilt").getD .null) ∧
      lookupKey r "Home Type" = some ((lookupKey kvs "homeType").getD .null) := by
  refine ⟨?_, ?_, ?_, ?_, ?_, ?_, ?_⟩ <;>
    rw [buildReport_fixed kvs addr r _ hrun (fun k => factKey_ne k _ (by decide))] <;>
    rfl

/-- The report built from a property record holding only a price. -/
def priceOnlyReport : FlatRecord :=
  [("Address", .str "A"), ("Price", .num 450000), ("Zestimate", .null),
   ("Beds", .null), ("Baths", .null), ("Sqft", .null), ("Year Built", .null),
   ("Home Type", .null), ("URL", .str "https://www.zillow.comNone")]

theorem C1_core_metrics_witness :
    buildReport (.obj [("price", .num 450000)]) "A" = .ok priceOnlyReport ∧
      lookupKey priceOnlyReport "Price" = some (.num 450000) := by
  constructor
  · rfl
  · have h := (C1_core_metrics [("price", .num 450000)] "A" priceOnlyReport rfl).1
    simpa using h

/-- C8 counterexample: with `hdpUrl` absent the URL entry is indeed
`"https://www.zillow.comNone"`, but the claim's contrast "unlike the other
core metrics" is false — a core metric absent from the source (here
`zestimate`) is not omitted either; its column is present holding null. -/
theorem C8_counterexample :
    (normalizeData (mkData [("property", .obj [("price", .num 450000)])]) "Y").map
        (fun r => (lookupKey r "URL", lookupKey r "Zestimate"))
      = .ok (some (.str "https://www.zillow.comNone"), some JVal.null) := rfl

/-- C8 amended: when the located property record lacks `hdpUrl` (or has it
null), the FlatRecord still contains a "URL" entry whose value is the site
prefix concatenated with `str(None)`, i.e. `"https://www.zillow.comNone"`;
the URL column is never omitted — and neither are the other core metric
columns, which are likewise always present (holding null when absent). -/
theorem C8_url_column (kvs : List (String × JVal)) (addr : String)
    (r : FlatRecord) (hrun : buildReport (.obj kvs) addr = .ok r)
    (hurl : (lookupKey kvs "hdpUrl").getD .null = .null) :
    lookupKey r "URL" = some (.str "https://www.zillow.comNone") ∧
      (lookupKey r "Price").isSome = true ∧
      (lookupKey r "Zestimate").isSome = true := by
  refine ⟨?_, ?_, ?_⟩
  · rw [buildReport_fixed kvs addr r "URL" hrun (fun k => factKey_ne k _ (by decide))]
    have hm : lookupKey (metricsOf kvs addr) "URL"
        = some (.str ("https://www.zillow.com"
            ++ pystr ((lookupKey kvs "hdpUrl").getD .null))) := rfl
    rw [hm, hurl]
    rfl
  · rw [buildReport_fixed kvs addr r "Price" hrun (fun k => factKey_ne k _ (by decide))]
    rfl
  · rw [buildReport_fixed kvs addr r "Zestimate" hrun (fun k => factKey_ne k _ (by decide))]
    rfl

/-- The report built from a property record with only a year built. -/
def yearOnlyReport : FlatRecord :=
  [("Address", .str "B"), ("Price", .null), ("Zestimate", .null),
   ("Beds", .null), ("Baths", .null), ("Sqft", .null), ("Year Built", .num 1987),
   ("Home Type", .null), ("URL", .str "https://www.zillow.comNone")]

theorem C8_url_column_witness :
    buildReport (.obj [("yearBuilt", .num 1987)]) "B" = .ok yearOnlyReport ∧
      lookupKey yearOnlyReport "URL" = some (.str "https://www.zillow.comNone") :=
  ⟨rfl, (C8_url_column [("yearBuilt", .num 1987)] "B" yearOnlyReport rfl rfl).1⟩

/-! ### Locating the property record -/

/-- How `locateProp` resolves on a blob of the standard shape, as a function
of the scan's outcome: the scanned value wins when truthy, otherwise the
`page_props.get("property", \x7b\x7d)` fallback, otherwise the
`propertyNotFound` failure. -/
theorem locateProp_chain (ppkvs cpkvs : List (String × JVal)) (cs : String)
    (ckvs : List (String × JVal)) (o : Option JVal)
    (hcp : lookupKey ppkvs "componentProps" = some (.obj cpkvs))
    (hcs : lookupKey cpkvs "gdpClientCache" = some (.str cs))
    (hparse : parseJson cs = some (.obj ckvs))
    (hscan : findProp ckvs = .ok o) :
    locateProp (mkData ppkvs)
      = (if truthy (o.getD (.obj [])) then .ok (o.getD (.obj []))
         else if truthy ((lookupKey ppkvs "property").getD (.obj []))
         then .ok ((lookupKey ppkvs "property").getD (.obj []))
         else .error .propertyNotFound) := by
  have h1 : locateProp (mkData ppkvs) =
      (pyGetD (.obj ppkvs) "componentProps" (.obj [])).bind (fun compProps =>
      (pyGetD compProps "gdpClientCache" (.str "\x7b\x7d")).bind fun cacheVal =>
      (jloads cacheVal).bind fun cacheData =>
      (scanCache cacheData).bind fun scanned =>
      (if truthy (scanned.getD (.obj []))
         then .ok (scanned.getD (.obj []))
         else pyGetD (.obj ppkvs) "property" (.obj [])).bind fun prop =>
      if truthy prop then .ok prop else .error .propertyNotFound) := rfl
  rw [h1]
  rw [show pyGetD (JVal.obj ppkvs) "componentProps" (.obj []) = Except.ok (.obj cpkvs) from by
    simp [pyGetD, hcp]]
  simp only [Except.bind]
  rw [show pyGetD (JVal.obj cpkvs) "gdpClientCache" (.str "\x7b\x7d") = Except.ok (.str cs) from by
    simp [pyGetD, hcs]]
  simp only [Except.bind]
  rw [show jloads (.str cs) = Except.ok (.obj ckvs) from by simp [jloads, hparse]]
  simp only [Except.bind]
  rw [show scanCache (.obj ckvs) = Except.ok o from hscan]
  simp only [Except.bind]
  by_cases ht : truthy (o.getD (.obj []))
  · rw [if_pos ht, if_pos ht]
    simp only [Except.bind]
    rw [if_pos ht]
  · rw [if_neg ht, if_neg ht]
    rw [show pyGetD (JVal.obj ppkvs) "property" (.obj [])
        = Except.ok ((lookupKey ppkvs "property").getD (.obj [])) from rfl]

/-- An optional candidate that is either absent or a mapping is falsy
precisely when it is no non-empty mapping. -/
theorem truthy_optObj (o : Option JVal)
    (ho : o = none ∨ ∃ evs, o = some (.obj evs)) :
    truthy (o.getD (.obj [])) = false ↔ (o = none ∨ o = some (.obj [])) := by
  rcases ho with rfl | ⟨evs, rfl⟩
  · simp [truthy]
  · cases evs <;> simp [truthy]

/-- C3: the routine scans the cache entries in order, takes the first entry
exposing a `property` field, falls back to `page_props["property"]` when
the scan yields nothing truthy, and fails with `propertyNotFound` exactly
when neither the scan nor the fallback yields a non-empty mapping. -/
theorem C3_locate_property (ppkvs cpkvs : List (String × JVal)) (cs : String)
    (ckvs : List (String × JVal)) (o : Option JVal)
    (hcp : lookupKey ppkvs "componentProps" = some (.obj cpkvs))
    (hcs : lookupKey cpkvs "gdpClientCache" = some (.str cs))
    (hparse : parseJson cs = some (.obj ckvs))
    (hscan : findProp ckvs = .ok o)
    (ho : o = none ∨ ∃ evs, o = some (.obj evs))
    (hfb : lookupKey ppkvs "property" = none
      ∨ ∃ fvs, lookupKey ppkvs "property" = some (.obj fvs)) :
    locateProp (mkData ppkvs)
        = (if truthy (o.getD (.obj [])) then .ok (o.getD (.obj []))
           else if truthy ((lookupKey ppkvs "property").getD (.obj []))
           then .ok ((lookupKey ppkvs "property").getD (.obj []))
           else .error .propertyNotFound) ∧
      (locateProp (mkData ppkvs) = .error .propertyNotFound ↔
        ((o = none ∨ o = some (.obj [])) ∧
          (lookupKey ppkvs "property" = none
            ∨ lookupKey ppkvs "property" = some (.obj [])))) ∧
      ∀ k evs p rest, ckvs = (k, .obj evs) :: rest →
        lookupKey evs "property" = some p → o = some p := by
  have hchain := locateProp_chain ppkvs cpkvs cs ckvs o hcp hcs hparse hscan
  refine ⟨hchain, ?_, ?_⟩
  · rw [hchain]
    by_cases ht : truthy (o.getD (.obj []))
    · rw [if_pos ht]
      constructor
      · intro h
        cases h
      · intro h
        rw [(truthy_optObj o ho).mpr h.1] at ht
        cases ht
    · rw [if_neg ht]
      by_cases hf : truthy ((lookupKey ppkvs "property").getD (.obj []))
      · rw [if_pos hf]
        constructor
        · intro h
          cases h
        · intro h
          rw [(truthy_optObj _ hfb).mpr h.2] at hf
          cases hf
      · rw [if_neg hf]
        constructor
        · intro _
          rw [Bool.not_eq_true] at ht hf
          exact ⟨(truthy_optObj o ho).mp ht, (truthy_optObj _ hfb).mp hf⟩
        · intro _
          rfl
  · intro k evs p rest hck hp
    rw [hck] at hscan
    simp only [findProp, hasPropertyKey, hp, Option.isSome] at hscan
    exact (Except.ok.inj hscan).symm

theorem C3_locate_property_witness :
    locateProp (mkData [("componentProps",
        .obj [("gdpClientCache", .str "\x7b\"a\":\x7b\x7d\x7d")])])
      = .error .propertyNotFound :=
  ((C3_locate_property
      [("componentProps", .obj [("gdpClientCache", .str "\x7b\"a\":\x7b\x7d\x7d")])]
      [("gdpClientCache", .str "\x7b\"a\":\x7b\x7d\x7d")]
      "\x7b\"a\":\x7b\x7d\x7d" [("a", .obj [])] none
      rfl rfl rfl rfl (Or.inl rfl) (Or.inl rfl)).2.1).mpr
    ⟨Or.inl rfl, Or.inl rfl⟩

/-- Cache entries that do not expose a `property` field are skipped by the
scan. -/
theorem findProp_skip (pre l : List (String × JVal))
    (hpre : ∀ kv ∈ pre, hasPropertyKey kv.2 = .ok false) :
    findProp (pre ++ l) = findProp l := by
  induction pre with
  | nil => rfl
  | cons hd tl ih =>
      have hh := hpre hd (List.mem_cons_self _ _)
      obtain ⟨k0, v0⟩ := hd
      have hr : findProp (((k0, v0) :: tl) ++ l) = findProp (tl ++ l) := by
        simp only [List.cons_append, findProp]
        rw [hh]
        rfl
      rw [hr]
      exact ih fun kv hkv => hpre kv (List.mem_cons_of_mem _ hkv)

/-- C9: when the first cache entry containing a `property` key maps it to
an empty mapping, the scan stops there — its result does not depend on the
later entries — and the routine proceeds to the fallback, failing with
`propertyNotFound` when the fallback is unusable even though a later cache
entry holds a non-empty property record. -/
theorem C9_first_match_stops (pre rest : List (String × JVal)) (k : String)
    (evs ppkvs cpkvs : List (String × JVal)) (cs : String)
    (hpre : ∀ kv ∈ pre, hasPropertyKey kv.2 = .ok false)
    (hfirst : lookupKey evs "property" = some (.obj []))
    (hcp : lookupKey ppkvs "componentProps" = some (.obj cpkvs))
    (hcs : lookupKey cpkvs "gdpClientCache" = some (.str cs))
    (hparse : parseJson cs = some (.obj (pre ++ (k, .obj evs) :: rest))) :
    findProp (pre ++ (k, .obj evs) :: rest) = .ok (some (.obj [])) ∧
      locateProp (mkData ppkvs)
        = (if truthy ((lookupKey ppkvs "property").getD (.obj []))
           then .ok ((lookupKey ppkvs "property").getD (.obj []))
           else .error .propertyNotFound) := by
  have hfp : findProp (pre ++ (k, .obj evs) :: rest) = .ok (some (.obj [])) := by
    rw [findProp_skip pre _ hpre]
    simp [findProp, hasPropertyKey, hfirst]
  refine ⟨hfp, ?_⟩
  rw [locateProp_chain ppkvs cpkvs cs _ (some (.obj [])) hcp hcs hparse hfp]
  rw [if_neg (by simp [truthy])]

theorem C9_first_match_stops_witness :
    locateProp (mkData [("componentProps", .obj [("gdpClientCache",
        .str "\x7b\"a\":\x7b\"property\":\x7b\x7d\x7d,\"b\":\x7b\"property\":\x7b\"price\":5\x7d\x7d\x7d")])])
      = .error .propertyNotFound := by
  have h := (C9_first_match_stops [] [("b", .obj [("property", .obj [("price", .num 5)])])]
    "a" [("property", .obj [])]
    [("componentProps", .obj [("gdpClientCache",
      .str "\x7b\"a\":\x7b\"property\":\x7b\x7d\x7d,\"b\":\x7b\"property\":\x7b\"price\":5\x7d\x7d\x7d")])]
    [("gdpClientCache",
      .str "\x7b\"a\":\x7b\"property\":\x7b\x7d\x7d,\"b\":\x7b\"property\":\x7b\"price\":5\x7d\x7d\x7d")]
    "\x7b\"a\":\x7b\"property\":\x7b\x7d\x7d,\"b\":\x7b\"property\":\x7b\"price\":5\x7d\x7d\x7d"
    (by intro kv hkv; cases hkv) rfl rfl rfl rfl).2
  rw [h]
  rfl

/-- C7: for every input on which the report is built, the key order is the
insertion order — the address entry, then the fixed metrics, then the
structured-fact entries in sweep order, then the secondary-fact entries in
sweep order (given that no two fact labels collide, which would merge their
columns in place) — and a second run on the same input yields the same key
order. -/
theorem C7_column_order (kvs rkvs : List (String × JVal)) (items : List JVal)
    (addr : String) (r : FlatRecord)
    (hreso : (lookupKey kvs "resoFacts").getD (.obj []) = .obj rkvs)
    (hother : (lookupKey rkvs "otherFacts").getD (.arr []) = .arr items)
    (hgood : ∀ item ∈ items, goodItem item = true)
    (hnd : (resoKeys rkvs ++ otherKeys items).Nodup)
    (hrun : buildReport (.obj kvs) addr = .ok r) :
    r.map Prod.fst = ["Address", "Price", "Zestimate", "Beds", "Baths", "Sqft",
        "Year Built", "Home Type", "URL"] ++ resoKeys rkvs ++ otherKeys items ∧
      ∀ r2, buildReport (.obj kvs) addr = .ok r2 → r2.map Prod.fst = r.map Prod.fst := by
  rw [List.nodup_append] at hnd
  obtain ⟨hnd1, hnd2, hdisj⟩ := hnd
  have hfresh1 : ∀ k ∈ resoKeys rkvs, k ∉ (metricsOf kvs addr).map Prod.fst := by
    intro k hk hmem
    obtain ⟨k0, rfl⟩ := resoKeys_factKey rkvs k hk
    rw [metricsOf_map] at hmem
    simp only [List.mem_cons, List.not_mem_nil, or_false] at hmem
    rcases hmem with h | h | h | h | h | h | h | h | h <;>
      exact factKey_ne k0 _ (by decide) h
  have hkeys1 := sweepReso_keys rkvs (metricsOf kvs addr) hfresh1 hnd1
  have hfresh2 : ∀ k ∈ otherKeys items,
      k ∉ (sweepReso rkvs (metricsOf kvs addr)).map Prod.fst := by
    intro k hk hmem
    rw [hkeys1, List.mem_append] at hmem
    rcases hmem with h | h
    · obtain ⟨k0, rfl⟩ := otherKeys_factKey items k hk
      rw [metricsOf_map] at h
      simp only [List.mem_cons, List.not_mem_nil, or_false] at h
      rcases h with h | h | h | h | h | h | h | h | h <;>
        exact factKey_ne k0 _ (by decide) h
    · exact hdisj h hk
  obtain ⟨r', hrun', hmap'⟩ :=
    sweepOther_keys items (sweepReso rkvs (metricsOf kvs addr)) hgood hfresh2 hnd2
  have hbuild : buildReport (.obj kvs) addr
      = sweepOther items (sweepReso rkvs (metricsOf kvs addr)) := by
    simp only [buildReport]
    rw [hreso]
    show (otherItems ((lookupKey rkvs "otherFacts").getD (.arr []))).bind
        (fun its => sweepOther its (sweepReso rkvs (metricsOf kvs addr)))
        = sweepOther items (sweepReso rkvs (metricsOf kvs addr))
    rw [hother]
    rfl
  rw [hbuild] at hrun
  rw [hrun'] at hrun
  cases hrun
  constructor
  · rw [hmap', hkeys1, metricsOf_map]
  · intro r2 h2
    rw [hbuild, hrun'] at h2
    cases h2
    rfl

/-- A property record with one standard fact and one secondary fact. -/
def orderDemoProp : List (String × JVal) :=
  [("resoFacts", .obj [("flooring", .arr [.str "Tile"]),
    ("otherFacts", .arr [.obj [("name", .str "sewer"), ("value", .str "Public")]])])]

/-- The report built from `orderDemoProp`. -/
def orderDemoReport : FlatRecord :=
  [("Address", .str "A"), ("Price", .null), ("Zestimate", .null),
   ("Beds", .null), ("Baths", .null), ("Sqft", .null), ("Year Built", .null),
   ("Home Type", .null), ("URL", .str "https://www.zillow.comNone"),
   ("Fact: Flooring", .str "Tile"), ("Fact: Sewer", .str "Public")]

theorem C7_column_order_witness :
    buildReport (.obj orderDemoProp) "A" = .ok orderDemoReport ∧
      orderDemoReport.map Prod.fst
        = ["Address", "Price", "Zestimate", "Beds", "Baths", "Sqft",
           "Year Built", "Home Type", "URL", "Fact: Flooring", "Fact: Sewer"] := by
  constructor
  · rfl
  · have h := (C7_column_order orderDemoProp
      [("flooring", .arr [.str "Tile"]),
        ("otherFacts", .arr [.obj [("name", .str "sewer"), ("value", .str "Public")]])]
      [.obj [("name", .str "sewer"), ("value", .str "Public")]]
      "A" orderDemoReport rfl rfl (by decide) (by decide) rfl).1
    rw [h]
    rfl

end ZillowScrape
